import Mathlib

/-!
Verification development for the `mistralai-edge` HTTP client core
(`src/client.js`): the retrying transport `_fetchWithRetry` / `_request`
and the streaming event decoder inside `chatStream`.

The JavaScript source is shallowly embedded: attempt outcomes of the host
`fetch` are given by a function from the attempt index to an outcome
(a transport-level exception or an HTTP response), delays are recorded as
a list of waited durations instead of real-time suspensions, and the host
`JSON.parse` (an external platform function, not code of this repository)
is a parameter `parse : String → Except ε α` that either returns a value
or throws.  Byte chunks are modelled as the text the `TextDecoder`
produces from them (the inputs in question are ASCII, on which decoding
is the identity).
-/

set_option autoImplicit false

namespace Mistral

universe u v

/-- `const RETRY_STATUS_CODES = [429, 500, 502, 503, 504];` (client.js line 1). -/
def RETRY_STATUS_CODES : List Nat := [429, 500, 502, 503, 504]

/-- `const ENDPOINT = 'https://api.mistral.ai';` (client.js line 2). -/
def ENDPOINT : String := "https://api.mistral.ai"

/-- An HTTP response as seen by `_fetchWithRetry`: a status code and a body.
The body type is abstract (`β`); for streaming requests it is instantiated
with the list of byte chunks the response delivers. -/
structure Response (β : Type u) where
  status : Nat
  body : β


/-- `response.ok` of the fetch API: status in the inclusive range 200–299. -/
def Response.ok {β : Type u} (r : Response β) : Prop :=
  200 ≤ r.status ∧ r.status ≤ 299

instance {β : Type u} (r : Response β) : Decidable r.ok := by
  unfold Response.ok; infer_instance

/-- The outcome of one `fetch(url, options)` attempt: either the promise
rejects with a transport-level exception, or a response arrives. -/
inductive Outcome (ε : Type u) (β : Type v) where
  | exc (e : ε)
  | resp (r : Response β)


/-- What one call of `_fetchWithRetry` does, observably: the final result
(`return response` or `throw error`), the list of delays passed to
`this._delay` in order, and the number of `fetch` attempts made. -/
structure RunResult (ε : Type u) (β : Type v) where
  result : Except ε (Response β)
  delays : List Nat
  attempts : Nat


/-- `_fetchWithRetry(url, options, retries, retryDelay)` (client.js lines
22–40), with the transport embedded as `t : Nat → Outcome ε β` giving the
outcome of the attempt with index `k` (the first attempt of a call has
index 0).  A received response is returned when
`response.ok || !RETRY_STATUS_CODES.includes(response.status) || retries <= 0`;
otherwise the call waits `retryDelay` and recurses with `retries - 1` and
`retryDelay * 2`.  A thrown error is rethrown when `retries <= 0`,
otherwise the call waits and recurses the same way.  `retries` is a `Nat`
(the spec's maxRetries is a non-negative integer), so the `retries <= 0`
test of the source is exactly the `0` pattern below, and the two
conditional returns of the source split accordingly: at `retries = 0`
every received response is returned and every thrown error is rethrown;
at `retries = retries' + 1` only the `response.ok` / non-retriable-status
disjuncts can fire. -/
def fetchWithRetry {ε : Type u} {β : Type v} (t : Nat → Outcome ε β) :
    (k retries retryDelay : Nat) → RunResult ε β
  | k, 0, _ =>
    match t k with
    | .resp response => ⟨.ok response, [], 1⟩
    | .exc error => ⟨.error error, [], 1⟩
  | k, retries' + 1, retryDelay =>
    match t k with
    | .resp response =>
      if response.ok ∨ response.status ∉ RETRY_STATUS_CODES then
        ⟨.ok response, [], 1⟩
      else
        let rest := fetchWithRetry t (k + 1) retries' (retryDelay * 2)
        ⟨rest.result, retryDelay :: rest.delays, rest.attempts + 1⟩
    | .exc _ =>
      let rest := fetchWithRetry t (k + 1) retries' (retryDelay * 2)
      ⟨rest.result, retryDelay :: rest.delays, rest.attempts + 1⟩

/-- `_fetchWithRetry` with its default arguments `retries = 3`,
`retryDelay = 500` (client.js line 22), starting at attempt index 0. -/
def fetchWithRetryDefault {ε : Type u} {β : Type v} (t : Nat → Outcome ε β) :
    RunResult ε β :=
  fetchWithRetry t 0 3 500

/-- An attempt outcome that `_fetchWithRetry` classifies as retriable:
a transport-level exception, or a response whose status is in
`RETRY_STATUS_CODES`. -/
def retriable {ε : Type u} {β : Type v} : Outcome ε β → Prop
  | .exc _ => True
  | .resp r => r.status ∈ RETRY_STATUS_CODES

/-- The `MistralClient` state set up by the constructor (client.js lines
15–19): endpoint and api key (the `TextDecoder` carries no state we model). -/
structure MistralClient where
  endpoint : String
  apiKey : String

/-- The constructor `constructor(apiKey, endpoint = ENDPOINT)` (client.js
line 15): an absent `endpoint` argument (JavaScript default parameter,
modelled as `none`) falls back to `ENDPOINT`. -/
def mistralClientNew (apiKey : String) (endpoint : Option String) :
    MistralClient :=
  { endpoint := endpoint.getD ENDPOINT, apiKey := apiKey }

/-- `_request(method, path, request, retries = 3)` (client.js lines 54–69),
restricted to its observable data flow: it runs `_fetchWithRetry` with the
given `retries` (and the default `retryDelay = 500`), rethrows a final
transport error, and otherwise returns `response.json()` — the response
body, buffered in full and handed to the host JSON parser — for every
request, streaming or not.  The response body is the list of byte chunks
it would deliver; buffering is their concatenation. -/
def request {ε : Type u} {α : Type v} (parse : String → Except ε α)
    (t : Nat → Outcome ε (List String)) (retries : Nat) :
    Except ε α :=
  match (fetchWithRetry t 0 retries 500).result with
  | .error e => .error e
  | .ok response => parse (String.join response.body)

/-- The character-list splitter behind `str.split(sep)` of JavaScript for a
one-character separator: splitting the empty string gives one empty
piece, and every separator occurrence opens a new piece (so a trailing
separator yields a trailing empty piece), exactly as
`String.prototype.split` does. -/
def jsSplitList (sep : Char) : List Char → List (List Char)
  | [] => [[]]
  | c :: cs =>
    let r := jsSplitList sep cs
    if c = sep then [] :: r
    else
      match r with
      | [] => [[c]]
      | l :: ls => (c :: l) :: ls

/-- `chunkString.split('\n')` (client.js line 188), via the character list
of the string.  Defined through `jsSplitList` so that it is structurally
recursive and evaluates inside the kernel. -/
def jsSplit (sep : Char) (s : String) : List String :=
  (jsSplitList sep s.toList).map String.mk

/-- `s.startsWith(p)` of JavaScript. -/
def jsStartsWith (p s : String) : Bool :=
  p.toList.isPrefixOf s.toList

/-- `s.substring(n)` of JavaScript: the suffix from index `n`, the whole
drop clipped at the end of the string. -/
def jsSubstring (n : Nat) (s : String) : String :=
  String.mk (s.toList.drop n)

/-- `s.trim()` of JavaScript: strip leading and trailing whitespace (the
inputs modelled here only ever carry ASCII whitespace, where JavaScript's
whitespace class and `Char.isWhitespace` agree). -/
def jsTrim (s : String) : String :=
  String.mk (((s.toList.dropWhile Char.isWhitespace).reverse.dropWhile
    Char.isWhitespace).reverse)

/-- The line loop of `chatStream` (client.js lines 190–198) over a list of
already-split lines: a line is processed only if it
`startsWith('data:')`; then `chunkData = chunkLine.substring(6).trim()`,
and if `chunkData !== '[DONE]'` the generator yields
`JSON.parse(chunkData)`.  The result collects the yielded events in order
together with `some e` if `JSON.parse` (the parameter `parse`) threw `e`,
ending the sequence there, or `none` if the lines were exhausted. -/
def decodeLines {ε : Type u} {α : Type v} (parse : String → Except ε α) :
    List String → List α × Option ε
  | [] => ([], none)
  | chunkLine :: rest =>
    if jsStartsWith "data:" chunkLine then
      let chunkData := jsTrim (jsSubstring 6 chunkLine)
      if chunkData ≠ "[DONE]" then
        match parse chunkData with
        | .ok v =>
          let r := decodeLines parse rest
          (v :: r.1, r.2)
        | .error e => ([], some e)
      else
        decodeLines parse rest
    else
      decodeLines parse rest

/-- The chunk loop of `chatStream` (client.js lines 185–199): each chunk is
text-decoded (identity on the ASCII inputs modelled here), split on
`'\n'`, and its lines fed through the line loop; a `JSON.parse` throw
aborts the whole generator, keeping the events already yielded. -/
def chatStreamDecode {ε : Type u} {α : Type v} (parse : String → Except ε α) :
    List String → List α × Option ε
  | [] => ([], none)
  | chunk :: chunks =>
    let r := decodeLines parse (jsSplit '\n' chunk)
    match r.2 with
    | some e => (r.1, some e)
    | none =>
      let r' := chatStreamDecode parse chunks
      (r.1 ++ r'.1, r'.2)

/-- Modelled from the spec: the framing rule's payload of a candidate
frame — "the remainder after stripping the prefix and surrounding
whitespace", the prefix being the 5-character literal `data:`. -/
def specPayload (line : String) : String :=
  jsTrim (jsSubstring 5 line)

/-- A concrete stand-in for the host `JSON.parse` used to evaluate the
decoder on closed inputs: a payload is accepted (and returned verbatim as
the event) exactly when it is brace-delimited like the JSON objects of
the spec's scenarios; anything else throws, with the offending payload as
the error.  The `[DONE]` sentinel is never given to it by the decoder. -/
def demoParse (s : String) : Except String String :=
  if jsStartsWith "\x7b" s && jsStartsWith "\x7d" (String.mk s.toList.reverse)
  then .ok s else .error s

/-- A second concrete stand-in for the host `JSON.parse`, accepting every
payload and returning it verbatim: it makes the exact payload string the
decoder hands to `JSON.parse` observable as the emitted event. -/
def echoParse (s : String) : Except String String :=
  .ok s

/-- The chat-completion request body built by `_makeChatCompletionRequest`
(client.js lines 83–103).  Absent / `null` / `undefined` JavaScript
arguments are modelled as `none`; `x ?? undefined` maps `null` and
`undefined` to `undefined` and anything else to itself, i.e. it is the
identity on this model.  Field names are the wire names of the JSON body. -/
structure ChatCompletionRequest (M Msg V : Type u) where
  model : M
  messages : Msg
  temperature : Option V
  max_tokens : Option V
  top_p : Option V
  random_seed : Option V
  stream : Option Bool
  safe_prompt : Option V

/-- `_makeChatCompletionRequest(model, messages, temperature, maxTokens,
topP, randomSeed, stream, safeMode)` (client.js lines 83–103). -/
def makeChatCompletionRequest {M Msg V : Type u} (model : M) (messages : Msg)
    (temperature maxTokens topP randomSeed : Option V) (stream : Option Bool)
    (safeMode : Option V) : ChatCompletionRequest M Msg V :=
  { model := model
    messages := messages
    temperature := temperature
    max_tokens := maxTokens
    top_p := topP
    random_seed := randomSeed
    stream := stream
    safe_prompt := safeMode }

/-- The request body `chat` sends (client.js lines 135–144): it calls
`_makeChatCompletionRequest` with `stream` hard-wired to `false`. -/
def chatRequestBody {M Msg V : Type u} (model : M) (messages : Msg)
    (temperature maxTokens topP randomSeed safeMode : Option V) :
    ChatCompletionRequest M Msg V :=
  makeChatCompletionRequest model messages temperature maxTokens topP
    randomSeed (some false) safeMode

/-- The request body `chatStream` sends (client.js lines 171–180): it calls
`_makeChatCompletionRequest` with `stream` hard-wired to `true`. -/
def chatStreamRequestBody {M Msg V : Type u} (model : M) (messages : Msg)
    (temperature maxTokens topP randomSeed safeMode : Option V) :
    ChatCompletionRequest M Msg V :=
  makeChatCompletionRequest model messages temperature maxTokens topP
    randomSeed (some true) safeMode

/-! ## Helper lemmas about the retrying transport -/

theorem retriable_not_ok {β : Type v} {r : Response β}
    (h : r.status ∈ RETRY_STATUS_CODES) : ¬ r.ok := by
  intro hok
  obtain ⟨h1, h2⟩ := hok
  simp [RETRY_STATUS_CODES] at h
  rcases h with h | h | h | h | h <;> omega

theorem fetchWithRetry_retriable_aux {ε : Type u} {β : Type v}
    (t : Nat → Outcome ε β) (h : ∀ j, retriable (t j)) :
    ∀ (N k d : Nat), (fetchWithRetry t k N d).attempts = N + 1 ∧
      (fetchWithRetry t k N d).delays = (List.range N).map (fun i => d * 2 ^ i) := by
  intro N
  induction N with
  | zero =>
    intro k d
    cases ht : t k <;> simp [fetchWithRetry, ht]
  | succ N ih =>
    intro k d
    have hdelays : d :: (List.range N).map (fun i => d * 2 * 2 ^ i) =
        (List.range (N + 1)).map (fun i => d * 2 ^ i) := by
      rw [List.range_succ_eq_map, List.map_cons, List.map_map]
      simp only [pow_zero, mul_one]
      refine congrArg _ (List.map_congr_left fun i _ => ?_)
      simp only [Function.comp_apply, pow_succ]
      ring
    cases ht : t k with
    | exc e =>
      have hrest := ih (k + 1) (d * 2)
      refine ⟨?_, ?_⟩ <;>
        simp [fetchWithRetry, ht, hrest.1, hrest.2, ← hdelays]
    | resp r =>
      have hmem : r.status ∈ RETRY_STATUS_CODES := by
        have := h k
        rw [ht] at this
        exact this
      have hcond : ¬(r.ok ∨ r.status ∉ RETRY_STATUS_CODES) := by
        rintro (hok | hnm)
        · exact retriable_not_ok hmem hok
        · exact hnm hmem
      have hrest := ih (k + 1) (d * 2)
      refine ⟨?_, ?_⟩ <;>
        simp [fetchWithRetry, ht, if_neg hcond, hrest.1, hrest.2, ← hdelays]

theorem fetchWithRetry_error_aux {ε : Type u} {β : Type v}
    (t : Nat → Outcome ε β) :
    ∀ (N k d : Nat) (e : ε), (fetchWithRetry t k N d).result = .error e →
      (fetchWithRetry t k N d).attempts = N + 1 ∧ t (k + N) = .exc e := by
  intro N
  induction N with
  | zero =>
    intro k d e hres
    cases ht : t k with
    | exc e' =>
      rw [show fetchWithRetry t k 0 d = ⟨.error e', [], 1⟩ by
        simp [fetchWithRetry, ht]] at hres ⊢
      simp at hres
      simp [ht, hres]
    | resp r =>
      rw [show fetchWithRetry t k 0 d = ⟨.ok r, [], 1⟩ by
        simp [fetchWithRetry, ht]] at hres
      simp at hres
  | succ N ih =>
    intro k d e hres
    cases ht : t k with
    | exc e' =>
      have hunf : fetchWithRetry t k (N + 1) d =
          ⟨(fetchWithRetry t (k + 1) N (d * 2)).result,
            d :: (fetchWithRetry t (k + 1) N (d * 2)).delays,
            (fetchWithRetry t (k + 1) N (d * 2)).attempts + 1⟩ := by
        simp [fetchWithRetry, ht]
      rw [hunf] at hres ⊢
      have := ih (k + 1) (d * 2) e hres
      refine ⟨by simp [this.1], ?_⟩
      have : t (k + 1 + N) = .exc e := this.2
      rwa [show k + 1 + N = k + (N + 1) by omega] at this
    | resp r =>
      by_cases hcond : r.ok ∨ r.status ∉ RETRY_STATUS_CODES
      · rw [show fetchWithRetry t k (N + 1) d = ⟨.ok r, [], 1⟩ by
          simp [fetchWithRetry, ht, if_pos hcond]] at hres
        simp at hres
      · have hunf : fetchWithRetry t k (N + 1) d =
            ⟨(fetchWithRetry t (k + 1) N (d * 2)).result,
              d :: (fetchWithRetry t (k + 1) N (d * 2)).delays,
              (fetchWithRetry t (k + 1) N (d * 2)).attempts + 1⟩ := by
          simp [fetchWithRetry, ht, if_neg hcond]
        rw [hunf] at hres ⊢
        have := ih (k + 1) (d * 2) e hres
        refine ⟨by simp [this.1], ?_⟩
        have := this.2
        rwa [show k + 1 + N = k + (N + 1) by omega] at this

theorem fetchWithRetry_resp_aux {ε : Type u} {β : Type v}
    (t : Nat → Outcome ε β) (h : ∀ j, ∃ r, t j = .resp r) :
    ∀ (N k d : Nat), ∃ r, (fetchWithRetry t k N d).result = .ok r := by
  intro N
  induction N with
  | zero =>
    intro k d
    obtain ⟨r, hr⟩ := h k
    exact ⟨r, by simp [fetchWithRetry, hr]⟩
  | succ N ih =>
    intro k d
    obtain ⟨r, hr⟩ := h k
    by_cases hcond : r.ok ∨ r.status ∉ RETRY_STATUS_CODES
    · exact ⟨r, by simp [fetchWithRetry, hr, if_pos hcond]⟩
    · obtain ⟨r', hr'⟩ := ih (k + 1) (d * 2)
      exact ⟨r', by simp [fetchWithRetry, hr, if_neg hcond, hr']⟩

/-! ## Claim theorems about the retrying transport -/

/-- C1: with maxRetries = N and a transport whose every attempt fails
retriably (an exception or a status in {429, 500, 502, 503, 504}),
`_fetchWithRetry` performs exactly N + 1 attempts and the N waits between
consecutive attempts are initialDelay, initialDelay·2, initialDelay·2²,
…, i.e. the k-th wait is initialDelay times the backoff multiplier (the
constant 2 of `retryDelay * 2`) to the k. -/
theorem retry_attempts_and_delays {ε : Type u} {β : Type v}
    (t : Nat → Outcome ε β) (N d : Nat) (h : ∀ j, retriable (t j)) :
    (fetchWithRetry t 0 N d).attempts = N + 1 ∧
    (fetchWithRetry t 0 N d).delays = (List.range N).map (fun i => d * 2 ^ i) :=
  fetchWithRetry_retriable_aux t h N 0 d

/-- Witness for C1: a transport that always throws, N = 2, initialDelay =
500: three attempts, waits 500 and 1000. -/
theorem retry_attempts_and_delays_witness :
    (fetchWithRetry (fun _ => (Outcome.exc "boom" : Outcome String String))
        0 2 500).attempts = 2 + 1 ∧
    (fetchWithRetry (fun _ => (Outcome.exc "boom" : Outcome String String))
        0 2 500).delays = (List.range 2).map (fun i => 500 * 2 ^ i) :=
  retry_attempts_and_delays (fun _ => Outcome.exc "boom") 2 500
    (fun _ => trivial)

/-- C5: a first attempt answered by a response whose status is outside
{429, 500, 502, 503, 504} — success statuses included — makes
`_fetchWithRetry` return after exactly one attempt, with no delay, with
that response verbatim, for every `retries` value. -/
theorem nonretriable_single_attempt {ε : Type u} {β : Type v}
    (t : Nat → Outcome ε β) (r : Response β) (N d : Nat)
    (h0 : t 0 = .resp r) (hs : r.status ∉ RETRY_STATUS_CODES) :
    fetchWithRetry t 0 N d = ⟨.ok r, [], 1⟩ := by
  cases N with
  | zero => simp [fetchWithRetry, h0]
  | succ N => simp [fetchWithRetry, h0, if_pos (Or.inr hs)]

/-- Witness for C5: a 404 response on the first attempt, maxRetries = 5. -/
theorem nonretriable_single_attempt_witness :
    fetchWithRetry (fun _ => (Outcome.resp ⟨404, "nf"⟩ : Outcome String String))
      0 5 500 = ⟨.ok ⟨404, "nf"⟩, [], 1⟩ :=
  nonretriable_single_attempt _ ⟨404, "nf"⟩ 5 500 rfl (by decide)

/-- C10: `_fetchWithRetry` never throws because of an HTTP status code: if
every attempt is answered by a response (never an exception) the result
is a normally returned response, for every maxRetries; and when it does
throw, the thrown error is exactly the exception of the last attempt,
which ran with zero remaining retries (all N + 1 attempts were made). -/
theorem retry_error_classification {ε : Type u} {β : Type v}
    (t : Nat → Outcome ε β) (N d : Nat) :
    (∀ e, (fetchWithRetry t 0 N d).result = .error e →
      (fetchWithRetry t 0 N d).attempts = N + 1 ∧ t N = .exc e) ∧
    ((∀ k, ∃ r, t k = .resp r) → ∃ r, (fetchWithRetry t 0 N d).result = .ok r) := by
  constructor
  · intro e hres
    have := fetchWithRetry_error_aux t N 0 d e hres
    simpa using this
  · intro h
    exact fetchWithRetry_resp_aux t h N 0 d

/-- Witness for C10: an always-throwing transport with maxRetries = 1
rethrows the final attempt's exception after both attempts, and an
always-503 transport returns its response normally. -/
theorem retry_error_classification_witness :
    ((fetchWithRetry (fun _ => (Outcome.exc "boom" : Outcome String String))
        0 1 500).attempts = 1 + 1 ∧
      (fun _ => (Outcome.exc "boom" : Outcome String String)) 1 = .exc "boom") ∧
    (∃ r, (fetchWithRetry (fun _ => (Outcome.resp ⟨503, "b"⟩ : Outcome String String))
        0 1 500).result = .ok r) :=
  ⟨(retry_error_classification (fun _ => Outcome.exc "boom") 1 500).1 "boom" rfl,
    (retry_error_classification (fun _ => Outcome.resp ⟨503, "b"⟩) 1 500).2
      (fun _ => ⟨⟨503, "b"⟩, rfl⟩)⟩

/-- C8: with no caller-supplied retry configuration `_fetchWithRetry` runs
with 3 retries, an initial delay of 500 ms and a delay doubling per
attempt — on an always-503 transport: four attempts, waits 500, 1000,
2000 — and with no caller-supplied endpoint the constructor uses
`https://api.mistral.ai`. -/
theorem default_configuration :
    (mistralClientNew "key" none).endpoint = "https://api.mistral.ai" ∧
    fetchWithRetryDefault
        (fun _ => (Outcome.resp ⟨503, "body"⟩ : Outcome String String)) =
      ⟨.ok ⟨503, "body"⟩, [500, 1000, 2000], 4⟩ :=
  ⟨rfl, rfl⟩

/-! ## Helper lemmas about the stream decoder -/

theorem decodeLines_append {ε : Type u} {α : Type v}
    (parse : String → Except ε α) (xs ys : List String) :
    decodeLines parse (xs ++ ys) =
      match (decodeLines parse xs).2 with
      | some e => ((decodeLines parse xs).1, some e)
      | none => ((decodeLines parse xs).1 ++ (decodeLines parse ys).1,
          (decodeLines parse ys).2) := by
  induction xs with
  | nil => simp [decodeLines]
  | cons x xs ih =>
    by_cases hs : jsStartsWith "data:" x
    · by_cases hd : jsTrim (jsSubstring 6 x) = "[DONE]"
      · simpa [decodeLines, hs, hd] using ih
      · cases hp : parse (jsTrim (jsSubstring 6 x)) with
        | ok v =>
          simp only [List.cons_append, List.append_eq, decodeLines, hs,
            if_true, if_pos hd, hp]
          rw [ih]
          cases h2 : (decodeLines parse xs).2 <;> simp
        | error e =>
          simp [decodeLines, hs, hd, hp]
    · simpa [decodeLines, hs] using ih

/-! ## Claim theorems about the stream decoder -/

/-- Counterexample to C3: on the line `data:{"a":1}` — a candidate, since
it starts with `data:` — the decoder hands `JSON.parse` the payload
`"a":1}` (the source's `substring(6)` drops the 5-character prefix and
one further character), not the claimed strip-the-prefix-and-trim payload
`{"a":1}`. -/
theorem payload_not_strip_then_trim :
    decodeLines echoParse ["data:\x7b\"a\":1\x7d"] = (["\"a\":1\x7d"], none) ∧
    specPayload "data:\x7b\"a\":1\x7d" = "\x7b\"a\":1\x7d" ∧
    ("\"a\":1\x7d" : String) ≠ "\x7b\"a\":1\x7d" :=
  ⟨rfl, rfl, by decide⟩

/-- C3 (amended): a line is treated as a candidate frame iff it starts
with the literal `data:`; a non-candidate line leaves the decoded output
untouched, and on a candidate frame whose payload is not the sentinel the
payload handed to `JSON.parse` — determining the emitted event or the
fatal error — is the remainder of the line after dropping its first 6
characters (the prefix plus one further character) and stripping
surrounding whitespace, which agrees with stripping exactly the prefix
and trimming whenever the character after `data:` is whitespace. -/
theorem data_line_candidate_and_payload {ε : Type u} {α : Type v}
    (parse : String → Except ε α) (line : String) (rest : List String) :
    (jsStartsWith "data:" line = false →
      decodeLines parse (line :: rest) = decodeLines parse rest) ∧
    (jsStartsWith "data:" line = true →
      jsTrim (jsSubstring 6 line) ≠ "[DONE]" →
      decodeLines parse (line :: rest) =
        match parse (jsTrim (jsSubstring 6 line)) with
        | .ok v => (v :: (decodeLines parse rest).1, (decodeLines parse rest).2)
        | .error e => ([], some e)) := by
  constructor
  · intro hns
    simp [decodeLines, hns]
  · intro hs hd
    simp only [decodeLines, hs, if_true, if_pos hd]

/-- Witness for C3 (amended): instantiated on the candidate line
`data: {1}` with the payload-echoing parser. -/
theorem data_line_candidate_and_payload_witness :
    decodeLines echoParse ["data: \x7b1\x7d"] =
      match echoParse (jsTrim (jsSubstring 6 "data: \x7b1\x7d")) with
      | .ok v => (v :: (decodeLines echoParse ([] : List String)).1,
          (decodeLines echoParse ([] : List String)).2)
      | .error e => ([], some e) :=
  (data_line_candidate_and_payload echoParse "data: \x7b1\x7d" []).2 rfl (by decide)

/-- C6: a frame whose payload is exactly `[DONE]` yields no event and no
error — the decoder just moves on — and the stream bytes
`data: {"a":1}\n\ndata: {"a":2}\n\ndata: [DONE]\n`, delivered as one
chunk, decode to exactly the events of `{"a":1}` and `{"a":2}` with a
clean (error-free) end. -/
theorem done_sentinel_no_event_no_error :
    chatStreamDecode demoParse
        ["data: \x7b\"a\":1\x7d\n\ndata: \x7b\"a\":2\x7d\n\ndata: [DONE]\n"] =
      (["\x7b\"a\":1\x7d", "\x7b\"a\":2\x7d"], none) ∧
    ∀ {ε : Type u} {α : Type v} (parse : String → Except ε α) (line : String)
      (rest : List String), jsStartsWith "data:" line = true →
      jsTrim (jsSubstring 6 line) = "[DONE]" →
      decodeLines parse (line :: rest) = decodeLines parse rest := by
  refine ⟨rfl, ?_⟩
  intro ε α parse line rest hs hd
  simp [decodeLines, hs, hd]

/-- Witness for C6: the sentinel line `data: [DONE]` decodes like no line
at all. -/
theorem done_sentinel_no_event_no_error_witness :
    decodeLines demoParse ["data: [DONE]"] = decodeLines demoParse [] :=
  done_sentinel_no_event_no_error.2 demoParse "data: [DONE]" [] rfl (by decide)

/-- C7: a candidate `data:` frame whose non-sentinel payload fails
`JSON.parse` fails the whole decode at exactly that frame — the events of
the error-free lines before it are kept, nothing after it is decoded —
while a line not starting with `data:` is skipped silently, producing
neither an event nor an error. -/
theorem decode_error_at_bad_frame {ε : Type u} {α : Type v}
    (parse : String → Except ε α) (pre : List String) (bad : String)
    (post : List String) (e : ε)
    (hpre : (decodeLines parse pre).2 = none)
    (hb : jsStartsWith "data:" bad = true)
    (hd : jsTrim (jsSubstring 6 bad) ≠ "[DONE]")
    (hp : parse (jsTrim (jsSubstring 6 bad)) = .error e) :
    decodeLines parse (pre ++ bad :: post) = ((decodeLines parse pre).1, some e) ∧
    ∀ (line : String) (rest : List String), jsStartsWith "data:" line = false →
      decodeLines parse (line :: rest) = decodeLines parse rest := by
  constructor
  · have hbad : decodeLines parse (bad :: post) = ([], some e) := by
      simp [decodeLines, hb, hd, hp]
    rw [decodeLines_append, hpre, hbad]
    simp
  · intro line rest hns
    simp [decodeLines, hns]

/-- Witness for C7: one good frame, then the unparsable payload `nope`,
then a frame that is never reached. -/
theorem decode_error_at_bad_frame_witness :
    decodeLines demoParse ["data: \x7b1\x7d", "data: nope", "data: \x7b2\x7d"] =
      ((decodeLines demoParse ["data: \x7b1\x7d"]).1, some "nope") :=
  (decode_error_at_bad_frame demoParse ["data: \x7b1\x7d"] "data: nope"
    ["data: \x7b2\x7d"] "nope" rfl rfl (by decide) rfl).1

/-- C2 fails on the code, as the spec's design notes themselves flag: the
decoder splits each chunk by newline separately and carries no partial
line across chunks, so delivering the same bytes in two chunks can change
the decoded events.  `data: {"a":1}\n` as one chunk yields one event;
split as `dat` + `a: {"a":1}\n` it yields none (the frame is silently
lost); split as `data: {"a` + `:1}\n` it raises a decode error on the
truncated payload. -/
theorem chunk_split_changes_events :
    chatStreamDecode demoParse ["data: \x7b\"a\":1\x7d\n"] =
      (["\x7b\"a\":1\x7d"], none) ∧
    chatStreamDecode demoParse ["dat", "a: \x7b\"a\":1\x7d\n"] = ([], none) ∧
    chatStreamDecode demoParse ["data: \x7b\"a", ":1\x7d\n"] =
      ([], some "\x7b\"a") :=
  ⟨rfl, rfl, rfl⟩

/-- C4 fails on the code: `_request` ends with `return response.json()` for
every request, streaming included, so what `chatStream` receives is the
JSON-parse of the fully buffered body — here a parse error, since an SSE
body is not a JSON document — and never the raw response; decoding the
raw chunk stream itself would have produced the event of `{"a":1}` and a
clean end. -/
theorem request_json_parses_buffered_stream_body :
    request demoParse
        (fun _ => Outcome.resp
          ⟨200, ["data: \x7b\"a\":1\x7d\n", "data: [DONE]\n"]⟩) 3 =
      .error "data: \x7b\"a\":1\x7d\ndata: [DONE]\n" ∧
    chatStreamDecode demoParse ["data: \x7b\"a\":1\x7d\n", "data: [DONE]\n"] =
      (["\x7b\"a\":1\x7d"], none) :=
  ⟨rfl, rfl⟩

/-- C9: the body `chat` sends has its `stream` field set to `false` and the
body `chatStream` sends has it set to `true`, and both forward the chat
parameters unchanged under their wire names (`model`, `messages`,
`temperature`, `max_tokens`, `top_p`, `random_seed`, `safe_prompt`). -/
theorem chat_stream_flag_and_field_forwarding {M Msg V : Type u}
    (model : M) (messages : Msg)
    (temperature maxTokens topP randomSeed safeMode : Option V) :
    (chatRequestBody model messages temperature maxTokens topP randomSeed
      safeMode).stream = some false ∧
    (chatStreamRequestBody model messages temperature maxTokens topP randomSeed
      safeMode).stream = some true ∧
    chatRequestBody model messages temperature maxTokens topP randomSeed
        safeMode =
      { model := model, messages := messages, temperature := temperature,
        max_tokens := maxTokens, top_p := topP, random_seed := randomSeed,
        stream := some false, safe_prompt := safeMode } ∧
    chatStreamRequestBody model messages temperature maxTokens topP randomSeed
        safeMode =
      { model := model, messages := messages, temperature := temperature,
        max_tokens := maxTokens, top_p := topP, random_seed := randomSeed,
        stream := some true, safe_prompt := safeMode } :=
  ⟨rfl, rfl, rfl, rfl⟩

end Mistral
